import Mathlib

/-!
Formal model of the Options_Chart repository (src/Options_Chart.py).

The single class ContractAnalyzer implements a pipeline
name -> search match -> contract selection by strike proximity ->
candle retrieval -> indicator derivation -> series / summary payload.

Modelling conventions, stated once here:
* The upstream HTTP service is modelled as a Gateway snapshot value
  holding the responses the four endpoints would return for the fixed
  query inputs (company name, time window, interval).  Those inputs
  only ever appear inside request URLs in the source, so they are not
  separate model parameters; they are baked into the snapshot.
* Network calls are recorded in an explicit call log (GCall), and
  streamlit st.warning / st.error reports in a message log (Msg).
  Message payload text, which interpolates the company name, is
  abstracted to a constructor per call site.
* Python float arithmetic is modelled by exact rational arithmetic.
  Division is total on Q (x / 0 = 0), whereas floats give inf or NaN;
  the theorems below never depend on values produced by a division
  whose float counterpart would be inf or NaN.  The one genuinely
  irrational operation, the square root inside the Bollinger band
  standard deviation, is abstracted as an explicit function parameter
  sq : Q -> Q threaded through the indicator engine; every theorem
  holds for every choice of sq.
* Python truthiness on ids and strings: a missing key or a falsy id is
  modelled as none, a truthy id as some s.
* Transport failures (the except branches around each request) are not
  modelled: the Gateway snapshot always answers.  No claim below is
  about TransportFailure.
-/

namespace OptionsChart

/-- One element of the search endpoint response content list.
Source: fetch_ticker_details, items[0].get(...) (lines 31-37). -/
structure SearchItem where
  search_id : Option String
  nse_scrip_code : Option String
deriving DecidableEq

/-- The callOption / putOption sub-object of a chain entry; its only
field used by the source is growwContractId (lines 65-66). -/
structure OptionLeg where
  growwContractId : Option String
deriving DecidableEq

/-- One entry of optionChain.optionChains (lines 54, 64-66).  A missing
callOption / putOption key (Python .get with default) is none. -/
structure ChainEntry where
  strikePrice : ℚ
  callOption : Option OptionLeg
  putOption : Option OptionLeg
deriving DecidableEq

/-- One candle row as built by fetch_contract_price_details
(lines 91-101).  time is kept as the raw epoch value of candle[0]; the
strftime formatting is presentation only. -/
structure Row where
  time : ℤ
  opn : ℚ
  high : ℚ
  low : ℚ
  close : ℚ
  volume : ℚ
deriving DecidableEq

/-- A DataFrame row over the full column schema used by
calculate_technical_indicators.  A derived column that is NaN at this
row, or not (yet) assigned to the frame, is none.  Column name
RSI_SMA-14_Difference of the source is spelled RSI_SMA_14_Difference. -/
structure IndRow where
  base : Row
  RSI : Option ℚ
  RSI_SMA_14 : Option ℚ
  RSI_SMA_14_Difference : Option ℚ
  SMA_20 : Option ℚ
  BB_Upper : Option ℚ
  BB_Lower : Option ℚ
  BollingerBandWidth : Option ℚ
  MACD_Histogram : Option ℚ
  ADX : Option ℚ
  TSI : Option ℚ
deriving DecidableEq

/-- A pandas DataFrame is a list of rows. -/
abbrev DFrame := List IndRow

/-- Snapshot of the upstream market data service: the four endpoint
responses for the fixed query inputs. -/
structure Gateway where
  searchContent : List SearchItem
  optionChains : List ChainEntry
  ltp : ℚ
  candleHistory : String → List Row

/-- A recorded outbound gateway request. -/
inductive GCall where
  | search
  | chain
  | livePrice
  | candles (contractId : String)
deriving DecidableEq

/-- Streamlit report sites of the source, by call site. -/
inductive Msg where
  | noSearchResults
  | missingSearchFields
  | noOptionChains
  | noValidContractIds
  | notEnoughData
  | errorCalculatingIndicators
deriving DecidableEq

/-- Whether a report site uses st.warning (true) or st.error (false). -/
def Msg.isWarning : Msg → Bool
  | .noSearchResults => true
  | .missingSearchFields => true
  | .noOptionChains => true
  | .noValidContractIds => true
  | .notEnoughData => true
  | .errorCalculatingIndicators => false

/-- The mutable fields of a ContractAnalyzer instance that the pipeline
stages write (lines 17-20). -/
structure AState where
  search_id : Option String
  nse_scrip_code : Option String
  call_contract_id : Option String
  put_contract_id : Option String
deriving DecidableEq

/-- Output of a boolean pipeline stage: returned flag, instance state
after the call, gateway calls issued, messages reported. -/
structure StageOut where
  ok : Bool
  state : AState
  calls : List GCall
  msgs : List Msg
deriving DecidableEq

/-- Output of fetch_contract_price_details. -/
structure FetchOut where
  data : Option DFrame
  calls : List GCall
  msgs : List Msg
deriving DecidableEq

/-- Output of calculate_technical_indicators: the returned frame, the
post-call content of the frame passed as argument (the method assigns
columns in place), and the messages reported. -/
structure CalcOut where
  result : Option DFrame
  post : Option DFrame
  msgs : List Msg
deriving DecidableEq

/-- One leg of the analyze result dict (line 180-181). -/
structure LegResult where
  data : Option DFrame
  contractId : Option String
deriving DecidableEq

/-- The dict returned by analyze (lines 179-182). -/
structure AResult where
  callLeg : LegResult
  putLeg : LegResult
deriving DecidableEq

/-- Full output of analyze: returned value, state, call and message logs. -/
structure AnalyzeOut where
  result : Option AResult
  state : AState
  calls : List GCall
  msgs : List Msg

/-- One leg dict of analysis_summary: the last indicator row converted
to a dict, plus the contractId key added at lines 155-158. -/
structure SummaryLeg where
  row : IndRow
  contractId : Option String
deriving DecidableEq

/-- The dict returned by analysis_summary (lines 160-163). -/
structure SummaryResult where
  callLeg : Option SummaryLeg
  putLeg : Option SummaryLeg
deriving DecidableEq

/-- Full output of analysis_summary. -/
structure SummaryOut where
  result : Option SummaryResult
  state : AState
  calls : List GCall
  msgs : List Msg

/-- Python abs on a rational (spelled explicitly so that kernel
evaluation of concrete instances reduces). -/
def ratAbs (x : ℚ) : ℚ := if x < 0 then -x else x

/-- The larger of two rationals (numpy amax of a pair). -/
def ratMax (a b : ℚ) : ℚ := if a ≤ b then b else a

/-- The smaller of two rationals (numpy amin of a pair). -/
def ratMin (a b : ℚ) : ℚ := if a ≤ b then a else b

/-- Python min(list, key=f) with a nonempty list split as seed :: rest:
keeps the current best and replaces it only on a strictly smaller key,
hence returns the first element attaining the minimal key. -/
def pythonMinBy (f : α → ℚ) (a : α) : List α → α
  | [] => a
  | x :: xs => if f x < f a then pythonMinBy f x xs else pythonMinBy f a xs

/-- fetch_ticker_details (lines 24-45): queries the search endpoint,
takes the first result, stores both id fields, then fails if either is
falsy.  Note the fields are assigned before the check, so the state is
updated even on the failure branch. -/
def fetch_ticker_details (g : Gateway) (s : AState) : StageOut :=
  match g.searchContent with
  | [] => ⟨false, s, [GCall.search], [Msg.noSearchResults]⟩
  | item :: _ =>
    let s1 : AState :=
      { s with search_id := item.search_id, nse_scrip_code := item.nse_scrip_code }
    if item.search_id.isSome && item.nse_scrip_code.isSome then
      ⟨true, s1, [GCall.search], []⟩
    else
      ⟨false, s1, [GCall.search], [Msg.missingSearchFields]⟩

/-- The key of the min call at line 64: abs(strikePrice / 100 - ltp). -/
def strikeDistance (ltp : ℚ) (x : ChainEntry) : ℚ :=
  ratAbs (x.strikePrice / 100 - ltp)

/-- The chain entry chosen at line 64, none when the chain is empty
(in that case the source returns before reaching the min call). -/
def selectedEntry (g : Gateway) : Option ChainEntry :=
  match g.optionChains with
  | [] => none
  | e :: rest => some (pythonMinBy (strikeDistance g.ltp) e rest)

/-- closest_chain.get("callOption", default dict).get("growwContractId"). -/
def entryCallId (e : ChainEntry) : Option String :=
  e.callOption.bind OptionLeg.growwContractId

/-- closest_chain.get("putOption", default dict).get("growwContractId"). -/
def entryPutId (e : ChainEntry) : Option String :=
  e.putOption.bind OptionLeg.growwContractId

/-- The call contract id the selection stage would store. -/
def selCallId (g : Gateway) : Option String :=
  (selectedEntry g).bind entryCallId

/-- The put contract id the selection stage would store. -/
def selPutId (g : Gateway) : Option String :=
  (selectedEntry g).bind entryPutId

/-- fetch_closest_contract_ids (lines 47-75): lists the option chain,
fails on an empty chain, fetches the latest traded price, picks the
entry minimizing strikeDistance, stores both leg ids, then fails if
either id is falsy.  Both ids are assigned before the check at line 68,
so the state records whichever leg exists even when the stage fails. -/
def fetch_closest_contract_ids (g : Gateway) (s : AState) : StageOut :=
  match g.optionChains with
  | [] => ⟨false, s, [GCall.chain], [Msg.noOptionChains]⟩
  | e :: rest =>
    let closest := pythonMinBy (strikeDistance g.ltp) e rest
    let s1 : AState :=
      { s with call_contract_id := entryCallId closest,
               put_contract_id := entryPutId closest }
    if (entryCallId closest).isSome && (entryPutId closest).isSome then
      ⟨true, s1, [GCall.chain, GCall.livePrice], []⟩
    else
      ⟨false, s1, [GCall.chain, GCall.livePrice], [Msg.noValidContractIds]⟩

/-- Lift a candle row to the full column schema: the frame built at
line 103 has only the base columns, so every derived column is absent. -/
def candleRow (c : Row) : IndRow :=
  ⟨c, none, none, none, none, none, none, none, none, none, none⟩

/-- fetch_contract_price_details (lines 77-106): a falsy contract id
short-circuits to None before any request is made; an empty candle list
yields None after one candle-history request; otherwise the candles are
converted to a fresh DataFrame. -/
def fetch_contract_price_details (g : Gateway) (contract_id : Option String) : FetchOut :=
  match contract_id with
  | none => ⟨none, [], []⟩
  | some cid =>
    match g.candleHistory cid with
    | [] => ⟨none, [GCall.candles cid], []⟩
    | c :: cs => ⟨some ((c :: cs).map candleRow), [GCall.candles cid], []⟩

/-! ## Pandas series

Every series produced inside calculate_technical_indicators has its NaN
cells forming a prefix of the series: the base columns are fully
defined, and each pandas operation used (diff / shift, where with a
defined fill, ewm mean with min_periods, rolling mean and std with
min_periods equal to the window, pointwise arithmetic, numpy where)
maps prefix-NaN inputs to prefix-NaN outputs.  A series of length
undef + vals.length is therefore represented as a count of leading
undefined cells followed by its defined values. -/
structure PSeries where
  undef : ℕ
  vals : List ℚ
deriving DecidableEq

namespace PSeries

/-- Total length of the series. -/
def len (s : PSeries) : ℕ := s.undef + s.vals.length

/-- Cell at position i: NaN cells are none; positions past the end are
also none (they never arise for indices below len). -/
def cell (s : PSeries) (i : ℕ) : Option ℚ :=
  if i < s.undef then none else s.vals[i - s.undef]?

/-- A fully defined column, e.g. a base column of the frame. -/
def ofVals (xs : List ℚ) : PSeries := ⟨0, xs⟩

/-- series.shift(1): one more leading NaN, values shifted right, length
preserved (the last value falls off the end). -/
def shift1 (s : PSeries) : PSeries :=
  ⟨min s.len (s.undef + 1), s.vals.dropLast⟩

/-- Pointwise combination of two aligned series (pandas arithmetic or
numpy where on series): the result is NaN where either input is. -/
def map2 (f : ℚ → ℚ → ℚ) (a b : PSeries) : PSeries :=
  let k := max a.undef b.undef
  ⟨k, List.zipWith f (a.vals.drop (k - a.undef)) (b.vals.drop (k - b.undef))⟩

/-- Pointwise map over the defined values. -/
def pmap (f : ℚ → ℚ) (s : PSeries) : PSeries := ⟨s.undef, s.vals.map f⟩

/-- Pointwise difference, pandas a - b. -/
def sub (a b : PSeries) : PSeries := map2 (fun x y => x - y) a b

/-- The recursion of ewm(adjust=False).mean() over the defined values:
y0 = x0, y(i+1) = (1 - a) * y(i) + a * x(i+1). -/
def ewmScan (al : ℚ) : ℚ → List ℚ → List ℚ
  | acc, [] => [acc]
  | acc, x :: xs => acc :: ewmScan al ((1 - al) * acc + al * x) xs

/-- ewm recursion values for a whole list. -/
def ewmVals (al : ℚ) : List ℚ → List ℚ
  | [] => []
  | x :: xs => ewmScan al x xs

/-- series.ewm(min_periods = m, adjust = False).mean() with smoothing
factor al: the recursion starts at the first defined value and the
output is NaN until m defined values have been seen, i.e. up to
position undef + m - 1. -/
def ewmMean (al : ℚ) (m : ℕ) (s : PSeries) : PSeries :=
  ⟨min s.len (s.undef + (m - 1)), (ewmVals al s.vals).drop (m - 1)⟩

/-- series.rolling(w).mean() (min_periods defaults to the window): the
output at a position is defined only when the whole window is. -/
def rollingMeanW (w : ℕ) (s : PSeries) : PSeries :=
  ⟨min s.len (s.undef + (w - 1)),
   (List.range (s.vals.length + 1 - w)).map
     (fun i => ((s.vals.drop i).take w).sum / w)⟩

/-- series.rolling(w).std(ddof = 0): population standard deviation over
each full window; the irrational square root is the parameter sq. -/
def rollingStdP (sq : ℚ → ℚ) (w : ℕ) (s : PSeries) : PSeries :=
  ⟨min s.len (s.undef + (w - 1)),
   (List.range (s.vals.length + 1 - w)).map
     (fun i =>
       let win := (s.vals.drop i).take w
       let m := win.sum / w
       sq (((win.map (fun x => (x - m) * (x - m))).sum) / w))⟩

end PSeries

/-! ## The ta library indicators

calculate_technical_indicators (lines 108-136) delegates the numeric
derivations to the ta library (ta 0.11).  Each definition below models
the corresponding ta implementation, composed from the pandas
operations above. -/

/-- ta.momentum.RSIIndicator(close, window=14).rsi():
diff = close.diff(1); up = diff.where(diff gt 0, 0.0) and
down = -diff.where(diff lt 0, -0.0) are fully defined because where
replaces the leading NaN of diff by the fill value; both are smoothed
by ewm(alpha = 1/14, min_periods = 14, adjust = False); the result is
numpy where(emadn == 0, 100, 100 - 100 / (1 + emaup / emadn)). -/
def rsiSeries (close : PSeries) : PSeries :=
  let d := PSeries.sub close (PSeries.shift1 close)
  let up : PSeries :=
    ⟨0, List.replicate d.undef 0 ++ d.vals.map (fun x => if 0 < x then x else 0)⟩
  let dn : PSeries :=
    ⟨0, List.replicate d.undef 0 ++ d.vals.map (fun x => if x < 0 then -x else 0)⟩
  let emaup := PSeries.ewmMean (1 / 14) 14 up
  let emadn := PSeries.ewmMean (1 / 14) 14 dn
  PSeries.map2
    (fun u dnv => if dnv = 0 then 100 else 100 - 100 / (1 + u / dnv))
    emaup emadn

/-- ta.trend.MACD(close, window_slow=26, window_fast=12,
window_sign=9).macd_diff(): fast and slow ewm means of close with
span smoothing 2/(span+1) and min_periods equal to the span, their
difference, the signal ewm of that difference, and line - signal. -/
def macdHistSeries (close : PSeries) : PSeries :=
  let emaFast := PSeries.ewmMean (2 / 13) 12 close
  let emaSlow := PSeries.ewmMean (2 / 27) 26 close
  let line := PSeries.sub emaFast emaSlow
  let signal := PSeries.ewmMean (2 / 10) 9 line
  PSeries.sub line signal

/-- ta.momentum.TSIIndicator(close, window_slow=25, window_fast=13)
.tsi(): double ewm smoothing (spans 25 then 13, min_periods equal to
the spans) of diff and of abs diff, combined as 100 * (num / den). -/
def tsiSeries (close : PSeries) : PSeries :=
  let d := PSeries.sub close (PSeries.shift1 close)
  let num := PSeries.ewmMean (2 / 14) 13 (PSeries.ewmMean (2 / 26) 25 d)
  let den :=
    PSeries.ewmMean (2 / 14) 13
      (PSeries.ewmMean (2 / 26) 25 (PSeries.pmap ratAbs d))
  PSeries.map2 (fun a b => 100 * (a / b)) num den

/-- The Wilder style accumulation loop shared by the trs, dip and din
arrays of ta.trend.ADXIndicator._run and by the adx smoothing loop:
a list seeded with a start value where each next value is f of the
previous value and the next input. -/
def recScan (f : ℚ → ℚ → ℚ) : ℚ → List ℚ → List ℚ
  | acc, [] => [acc]
  | acc, x :: xs => acc :: recScan f (f acc x) xs

/-- ta.trend.ADXIndicator(high, low, close, window=14).adx() for a
frame of length n, as numpy arrays of length L = n - 13:
* dm (directional movement input): max(high, close shifted) minus
  min(low, close shifted); its first cell is NaN, the defined values
  start at index 1 (dmVals below).
* trs: seeded with the sum of the first 14 defined dm values, then
  t - t/14 + dm(14 + i); the loop stops one short, leaving the last
  array cell at its numpy zeros value.
* dip / din use the same loop over the positive / negative moves.
* dx = 100 * abs(dipP - dinP) / (dipP + dinP) over the percentage
  arrays dipP = 100 * dip / trs and dinP = 100 * din / trs.
* the adx array is zero up to index 13, the mean of the first 14 dx
  values at index 14, then the Wilder smoothing (a * 13 + dx(i-1)) / 14,
  prefixed by the 13 zeros of trs_initial.
The resulting column contains no NaN cell.  Divisions whose float
counterpart would be inf or NaN (a zero trs or dipP + dinP) are total
rational divisions here; no theorem depends on those values. -/
def adxVals (high low close : List ℚ) : List ℚ :=
  let dmVals :=
    List.zipWith (fun hl c => ratMax hl.1 c - ratMin hl.2 c)
      (List.zipWith (fun h l => (h, l)) (high.drop 1) (low.drop 1)) close
  let posVals :=
    List.zipWith
      (fun du dd => if dd < du ∧ 0 < du then du else 0)
      (List.zipWith (fun a b => a - b) (high.drop 1) high)
      (List.zipWith (fun a b => a - b) low (low.drop 1))
  let negVals :=
    List.zipWith
      (fun du dd => if du < dd ∧ 0 < dd then dd else 0)
      (List.zipWith (fun a b => a - b) (high.drop 1) high)
      (List.zipWith (fun a b => a - b) low (low.drop 1))
  let wilder := fun (a x : ℚ) => a - a / 14 + x
  let L := close.length - 13
  let trs := recScan wilder ((dmVals.take 14).sum) (dmVals.drop 14) ++ [0]
  let dip := recScan wilder ((posVals.take 14).sum) (posVals.drop 14) ++ [0]
  let din := recScan wilder ((negVals.take 14).sum) (negVals.drop 14) ++ [0]
  let dipP := List.zipWith (fun d t => 100 * (d / t)) dip trs
  let dinP := List.zipWith (fun d t => 100 * (d / t)) din trs
  let dx := List.zipWith (fun p q => 100 * ratAbs ((p - q) / (p + q))) dipP dinP
  let adxCore :=
    recScan (fun a x => (a * 13 + x) / 14) ((dx.take 14).sum / 14)
      ((dx.drop 14).take (L - 15))
  List.replicate 13 0 ++ List.replicate 14 0 ++ adxCore

/-- The ADX column as a series: every cell defined. -/
def adxSeries (high low close : List ℚ) : PSeries :=
  ⟨0, adxVals high low close⟩

/-- The close column of a frame as a fully defined series. -/
def frameCloses (f : DFrame) : PSeries :=
  PSeries.ofVals (f.map (fun r => r.base.close))

/-- Column RSI (line 114-115). -/
def colRSI (f : DFrame) : PSeries := rsiSeries (frameCloses f)

/-- Column RSI_SMA_14: the 14 period rolling mean of the RSI column
(line 116). -/
def colRSISMA (f : DFrame) : PSeries := PSeries.rollingMeanW 14 (colRSI f)

/-- Column RSI_SMA-14_Difference: RSI minus its rolling mean (line 117). -/
def colDiff (f : DFrame) : PSeries := PSeries.sub (colRSI f) (colRSISMA f)

/-- Column SMA_20, also the Bollinger moving average: the 20 period
rolling mean of close (lines 118-119). -/
def colMavg (f : DFrame) : PSeries := PSeries.rollingMeanW 20 (frameCloses f)

/-- The Bollinger rolling standard deviation (ddof 0, window 20). -/
def colMstd (sq : ℚ → ℚ) (f : DFrame) : PSeries :=
  PSeries.rollingStdP sq 20 (frameCloses f)

/-- Column BB_Upper: mavg + 2 std (line 120). -/
def colBBU (sq : ℚ → ℚ) (f : DFrame) : PSeries :=
  PSeries.map2 (fun m s => m + 2 * s) (colMavg f) (colMstd sq f)

/-- Column BB_Lower: mavg - 2 std (line 121). -/
def colBBL (sq : ℚ → ℚ) (f : DFrame) : PSeries :=
  PSeries.map2 (fun m s => m - 2 * s) (colMavg f) (colMstd sq f)

/-- Column BollingerBandWidth: (hband - lband) / mavg * 100 (line 122). -/
def colBBW (sq : ℚ → ℚ) (f : DFrame) : PSeries :=
  PSeries.map2 (fun d m => d / m * 100)
    (PSeries.sub (colBBU sq f) (colBBL sq f)) (colMavg f)

/-- Column MACD_Histogram (lines 124-125). -/
def colMACD (f : DFrame) : PSeries := macdHistSeries (frameCloses f)

/-- Column ADX (lines 127-128). -/
def colADX (f : DFrame) : PSeries :=
  adxSeries (f.map (fun r => r.base.high)) (f.map (fun r => r.base.low))
    (f.map (fun r => r.base.close))

/-- Column TSI (lines 130-131). -/
def colTSI (f : DFrame) : PSeries := tsiSeries (frameCloses f)

/-- A row of the frame after the in place column assignments of
calculate_technical_indicators, reading each derived column at index i. -/
def augRow (f : DFrame) (sq : ℚ → ℚ) (i : ℕ) : IndRow :=
  { base := ((f.getD i (candleRow ⟨0, 0, 0, 0, 0, 0⟩)).base)
  , RSI := (colRSI f).cell i
  , RSI_SMA_14 := (colRSISMA f).cell i
  , RSI_SMA_14_Difference := (colDiff f).cell i
  , SMA_20 := (colMavg f).cell i
  , BB_Upper := (colBBU sq f).cell i
  , BB_Lower := (colBBL sq f).cell i
  , BollingerBandWidth := (colBBW sq f).cell i
  , MACD_Histogram := (colMACD f).cell i
  , ADX := (colADX f).cell i
  , TSI := (colTSI f).cell i }

/-- The frame content after all column assignments of lines 114-131. -/
def augment (sq : ℚ → ℚ) (f : DFrame) : DFrame :=
  (List.range f.length).map (augRow f sq)

/-- The frame content when the ADX assignment at line 128 raises (see
calculate_technical_indicators below): lines 114-125 already assigned
the RSI, SMA, Bollinger and MACD columns in place, the ADX and TSI
columns were never assigned. -/
def augmentAborted (sq : ℚ → ℚ) (f : DFrame) : DFrame :=
  (List.range f.length).map
    (fun i => { augRow f sq i with ADX := none, TSI := none })

/-- Whether every derived column is defined at this row (the base
columns always are). -/
def IndRow.allDef (r : IndRow) : Bool :=
  r.RSI.isSome && r.RSI_SMA_14.isSome && r.RSI_SMA_14_Difference.isSome &&
  r.SMA_20.isSome && r.BB_Upper.isSome && r.BB_Lower.isSome &&
  r.BollingerBandWidth.isSome && r.MACD_Histogram.isSome &&
  r.ADX.isSome && r.TSI.isSome

/-- DataFrame.dropna(): keep exactly the rows with no NaN cell. -/
def dropna (f : DFrame) : DFrame := f.filter IndRow.allDef

/-- calculate_technical_indicators (lines 108-136).
* data None or shorter than 20 rows: warns and returns None, the
  argument untouched (lines 110-112).
* 20 to 27 rows: the assignments of lines 114-125 run in place, then
  ta.trend.ADXIndicator.adx() raises IndexError, because it writes at
  index window = 14 of a numpy array of length n - 13 (at most 14); the
  except branch reports st.error and returns None (lines 134-136).
  The frame passed in keeps the columns assigned before the raise.
* 28 rows or more: all columns are assigned in place and a fresh
  dropna() copy is returned (line 133). -/
def calculate_technical_indicators (sq : ℚ → ℚ) (data : Option DFrame) : CalcOut :=
  match data with
  | none => ⟨none, none, [Msg.notEnoughData]⟩
  | some f =>
    if f.length < 20 then ⟨none, some f, [Msg.notEnoughData]⟩
    else if f.length < 28 then
      ⟨none, some (augmentAborted sq f), [Msg.errorCalculatingIndicators]⟩
    else
      ⟨some (dropna (augment sq f)), some (augment sq f), []⟩

/-- analyze (lines 166-182): resolution, selection, then per leg fetch
and indicator derivation; returns None when resolution or selection
fails, otherwise a dict holding, per leg, the derived frame (possibly
None) and the stored contract id. -/
def analyze (g : Gateway) (sq : ℚ → ℚ) (s : AState) : AnalyzeOut :=
  let t := fetch_ticker_details g s
  if t.ok then
    let c := fetch_closest_contract_ids g t.state
    if c.ok then
      let callF := fetch_contract_price_details g c.state.call_contract_id
      let putF := fetch_contract_price_details g c.state.put_contract_id
      let callT := calculate_technical_indicators sq callF.data
      let putT := calculate_technical_indicators sq putF.data
      ⟨some ⟨⟨callT.result, c.state.call_contract_id⟩,
             ⟨putT.result, c.state.put_contract_id⟩⟩,
       c.state, t.calls ++ c.calls ++ callF.calls ++ putF.calls,
       t.msgs ++ c.msgs ++ callF.msgs ++ putF.msgs ++ callT.msgs ++ putT.msgs⟩
    else ⟨none, c.state, t.calls ++ c.calls, t.msgs ++ c.msgs⟩
  else ⟨none, t.state, t.calls, t.msgs⟩

/-- analysis_summary (lines 139-163): the same pipeline, but each leg
is projected to its last row (iloc[-1].to_dict(), None when the frame
is None or empty) extended with the contractId key. -/
def analysis_summary (g : Gateway) (sq : ℚ → ℚ) (s : AState) : SummaryOut :=
  let t := fetch_ticker_details g s
  if t.ok then
    let c := fetch_closest_contract_ids g t.state
    if c.ok then
      let callF := fetch_contract_price_details g c.state.call_contract_id
      let putF := fetch_contract_price_details g c.state.put_contract_id
      let callT := calculate_technical_indicators sq callF.data
      let putT := calculate_technical_indicators sq putF.data
      let callS := callT.result.bind
        (fun fr => fr.getLast?.map (fun r => SummaryLeg.mk r c.state.call_contract_id))
      let putS := putT.result.bind
        (fun fr => fr.getLast?.map (fun r => SummaryLeg.mk r c.state.put_contract_id))
      ⟨some ⟨callS, putS⟩,
       c.state, t.calls ++ c.calls ++ callF.calls ++ putF.calls,
       t.msgs ++ c.msgs ++ callF.msgs ++ putF.msgs ++ callT.msgs ++ putT.msgs⟩
    else ⟨none, c.state, t.calls ++ c.calls, t.msgs ++ c.msgs⟩
  else ⟨none, t.state, t.calls, t.msgs⟩

/-- The summary view as the specification words it: the projection of
one analyze result to, per leg, its most recent row plus the contract
id of that leg. -/
def summaryProjection (r : AResult) : SummaryResult :=
  ⟨r.callLeg.data.bind
     (fun fr => fr.getLast?.map (fun row => SummaryLeg.mk row r.callLeg.contractId)),
   r.putLeg.data.bind
     (fun fr => fr.getLast?.map (fun row => SummaryLeg.mk row r.putLeg.contractId))⟩

/-- Whether a recorded gateway request is a candle-history request. -/
def isCandleCall : GCall → Bool
  | GCall.candles _ => true
  | _ => false

/-- Resolution succeeds on this snapshot. -/
def resolveOk (g : Gateway) : Bool :=
  match g.searchContent with
  | [] => false
  | item :: _ => item.search_id.isSome && item.nse_scrip_code.isSome

/-- Selection succeeds on this snapshot: the chain is nonempty and the
winning entry has both leg ids. -/
def selectOk (g : Gateway) : Bool :=
  (selCallId g).isSome && (selPutId g).isSome

/-- The derived frame of one leg for a given contract id: candle fetch
followed by indicator derivation. -/
def legData (g : Gateway) (sq : ℚ → ℚ) (cid : Option String) : Option DFrame :=
  (calculate_technical_indicators sq (fetch_contract_price_details g cid).data).result

/-! ## Concrete fixtures used to instantiate the theorems -/

/-- A square root stand in; every theorem holds for every sq, so any
concrete choice instantiates them. -/
def sqZero : ℚ → ℚ := fun _ => 0

/-- A freshly constructed analyzer state (lines 17-20). -/
def s0 : AState := ⟨none, none, none, none⟩

/-- A generic candle row: strictly increasing closes and highs,
decreasing gaps, so no ta intermediate hits a float division of zero
by zero. -/
def testCandle (i : ℕ) : Row :=
  ⟨(i : ℤ), (i : ℚ) + 1, 2 * (i : ℚ) + 3, (i : ℚ) / 2, (i : ℚ) + 2, 5⟩

/-- A candle frame of n generic rows, as fetch_contract_price_details
would build it. -/
def mkFrame (n : ℕ) : DFrame :=
  (List.range n).map (fun i => candleRow (testCandle i))

/-- Snapshot of end to end scenario A of the specification: one search
hit, strikes 90, 100 and 110 stored scaled by 100, latest price 101. -/
def gScenarioA : Gateway where
  searchContent := [⟨some "sid", some "scrip"⟩]
  optionChains :=
    [⟨9000, some ⟨some "C90"⟩, some ⟨some "P90"⟩⟩,
     ⟨10000, some ⟨some "C100"⟩, some ⟨some "P100"⟩⟩,
     ⟨11000, some ⟨some "C110"⟩, some ⟨some "P110"⟩⟩]
  ltp := 101
  candleHistory := fun _ => []

/-- A snapshot whose single chain entry has a call leg but no put leg. -/
def gOneLeg : Gateway where
  searchContent := [⟨some "sid", some "scrip"⟩]
  optionChains := [⟨10000, some ⟨some "CALL1"⟩, none⟩]
  ltp := 100
  candleHistory := fun _ => []

/-- A snapshot with an empty search response. -/
def gEmptySearch : Gateway where
  searchContent := []
  optionChains := []
  ltp := 0
  candleHistory := fun _ => []

/-- A snapshot where selection succeeds with both legs but both candle
responses are empty. -/
def gNoCandles : Gateway where
  searchContent := [⟨some "sid", some "scrip"⟩]
  optionChains := [⟨10000, some ⟨some "CALL1"⟩, some ⟨some "PUT1"⟩⟩]
  ltp := 100
  candleHistory := fun _ => []

/-- Like gNoCandles, but with candles on the put contract only: it
agrees with gNoCandles everywhere the call leg looks. -/
def gPutCandles : Gateway where
  searchContent := [⟨some "sid", some "scrip"⟩]
  optionChains := [⟨10000, some ⟨some "CALL1"⟩, some ⟨some "PUT1"⟩⟩]
  ltp := 100
  candleHistory := fun cid => if cid = "PUT1" then (List.range 40).map testCandle else []

/-! ## Theorems -/

theorem pythonMinBy_mem (f : α → ℚ) (a : α) (l : List α) :
    pythonMinBy f a l ∈ a :: l := by
  induction l generalizing a with
  | nil => simp [pythonMinBy]
  | cons x xs ih =>
    simp only [pythonMinBy]
    split
    · have h := ih x
      simp only [List.mem_cons] at h ⊢
      tauto
    · have h := ih a
      simp only [List.mem_cons] at h ⊢
      tauto

theorem pythonMinBy_le (f : α → ℚ) (a : α) (l : List α) :
    ∀ y ∈ a :: l, f (pythonMinBy f a l) ≤ f y := by
  induction l generalizing a with
  | nil =>
    intro y hy
    rw [List.mem_singleton] at hy
    subst hy
    simp [pythonMinBy]
  | cons x xs ih =>
    intro y hy
    rw [List.mem_cons] at hy
    simp only [pythonMinBy]
    by_cases h : f x < f a
    · rw [if_pos h]
      rcases hy with hya | hy2
      · rw [hya]
        exact le_trans (ih x x (List.mem_cons_self x xs)) (le_of_lt h)
      · exact ih x y hy2
    · rw [if_neg h]
      rcases hy with hya | hy2
      · rw [hya]
        exact ih a a (List.mem_cons_self a xs)
      · rw [List.mem_cons] at hy2
        rcases hy2 with hyx | hy3
        · rw [hyx]
          exact le_trans (ih a a (List.mem_cons_self a xs)) (le_of_not_lt h)
        · exact ih a y (List.mem_cons_of_mem a hy3)

theorem pythonMinBy_eq_seed_or_lt (f : α → ℚ) (a : α) (l : List α) :
    pythonMinBy f a l = a ∨ f (pythonMinBy f a l) < f a := by
  induction l generalizing a with
  | nil => left; rfl
  | cons x xs ih =>
    simp only [pythonMinBy]
    split
    case isTrue h =>
      right
      rcases ih x with he | hlt
      · rw [he]; exact h
      · exact lt_trans hlt h
    case isFalse h => exact ih a

/-- The selected element is the first list element attaining the
minimal key: scanning in order, the first key less than or equal to
the minimum belongs to the selected element itself. -/
theorem pythonMinBy_first (f : α → ℚ) (a : α) (l : List α) :
    (a :: l).find? (fun y => decide (f y ≤ f (pythonMinBy f a l)))
      = some (pythonMinBy f a l) := by
  induction l generalizing a with
  | nil => simp [pythonMinBy]
  | cons x xs ih =>
    simp only [pythonMinBy]
    split
    case isTrue h =>
      have hMx : f (pythonMinBy f x xs) ≤ f x := pythonMinBy_le f x xs x (by simp)
      have hnot : ¬ (f a ≤ f (pythonMinBy f x xs)) := by
        push_neg
        exact lt_of_le_of_lt hMx h
      rw [List.find?_cons_of_neg _ (by simpa using hnot)]
      exact ih x
    case isFalse h =>
      have hax : f a ≤ f x := le_of_not_lt h
      rcases pythonMinBy_eq_seed_or_lt f a xs with he | hlt
      · rw [he]
        exact List.find?_cons_of_pos _ (by simp)
      · have hna : ¬ (f a ≤ f (pythonMinBy f a xs)) := by push_neg; exact hlt
        have hnx : ¬ (f x ≤ f (pythonMinBy f a xs)) := by
          push_neg
          exact lt_of_lt_of_le hlt hax
        rw [List.find?_cons_of_neg _ (by simpa using hna),
            List.find?_cons_of_neg _ (by simpa using hnx)]
        have := ih a
        rwa [List.find?_cons_of_neg _ (by simpa using hna)] at this

/-- C1: on a nonempty option chain, the selection at line 64 picks the
chain entry minimizing abs(strike / 100 - latest price); ties go to the
first entry in chain order; a single entry chain always yields that
entry, whatever its distance. -/
theorem C1_strike_selection (g : Gateway) (e : ChainEntry) (rest : List ChainEntry)
    (h : g.optionChains = e :: rest) :
    selectedEntry g = some (pythonMinBy (strikeDistance g.ltp) e rest) ∧
    pythonMinBy (strikeDistance g.ltp) e rest ∈ e :: rest ∧
    (∀ y ∈ e :: rest,
      strikeDistance g.ltp (pythonMinBy (strikeDistance g.ltp) e rest)
        ≤ strikeDistance g.ltp y) ∧
    (e :: rest).find?
        (fun y => decide (strikeDistance g.ltp y
          ≤ strikeDistance g.ltp (pythonMinBy (strikeDistance g.ltp) e rest)))
      = some (pythonMinBy (strikeDistance g.ltp) e rest) ∧
    (rest = [] → pythonMinBy (strikeDistance g.ltp) e rest = e) := by
  refine ⟨?_, pythonMinBy_mem _ e rest, pythonMinBy_le _ e rest,
    pythonMinBy_first _ e rest, ?_⟩
  · unfold selectedEntry
    rw [h]
  · rintro rfl
    rfl

/-- Witness for C1 at scenario A of the specification: strikes 90, 100
and 110 scaled by 100 with latest price 101 select the strike 100
entry. -/
theorem C1_strike_selection_w :
    selectedEntry gScenarioA = some ⟨10000, some ⟨some "C100"⟩, some ⟨some "P100"⟩⟩ := by
  have h := C1_strike_selection gScenarioA
    ⟨9000, some ⟨some "C90"⟩, some ⟨some "P90"⟩⟩
    [⟨10000, some ⟨some "C100"⟩, some ⟨some "P100"⟩⟩,
     ⟨11000, some ⟨some "C110"⟩, some ⟨some "P110"⟩⟩] rfl
  rw [h.1]
  simp only [pythonMinBy, strikeDistance, ratAbs, gScenarioA]
  norm_num

/-- C3 counterexample: the winning (single) entry of this chain has a
call id and no put id, yet selection does not succeed at all; it does
not return a pair carrying the existing leg. -/
theorem C3_counterexample :
    (fetch_closest_contract_ids gOneLeg s0).ok = false ∧
    selCallId gOneLeg = some "CALL1" ∧ selPutId gOneLeg = none := by
  decide

/-- C3 amended: when the winning entry lacks a call id, a put id or
both, selection fails as a whole (line 68 returns False and analyze
returns None); the instance state still records whichever leg id
exists, but no successful selection with exactly one leg occurs. -/
theorem C3_missing_leg_all_or_nothing (g : Gateway) (s : AState) (sq : ℚ → ℚ)
    (e : ChainEntry) (rest : List ChainEntry)
    (hchains : g.optionChains = e :: rest)
    (h : selCallId g = none ∨ selPutId g = none) :
    (fetch_closest_contract_ids g s).ok = false ∧
    (fetch_closest_contract_ids g s).state.call_contract_id = selCallId g ∧
    (fetch_closest_contract_ids g s).state.put_contract_id = selPutId g ∧
    (analyze g sq s).result = none := by
  have hsel : selectedEntry g = some (pythonMinBy (strikeDistance g.ltp) e rest) := by
    unfold selectedEntry
    rw [hchains]
  have hcall : selCallId g = entryCallId (pythonMinBy (strikeDistance g.ltp) e rest) := by
    rw [selCallId, hsel]
    rfl
  have hput : selPutId g = entryPutId (pythonMinBy (strikeDistance g.ltp) e rest) := by
    rw [selPutId, hsel]
    rfl
  have hcond : ((entryCallId (pythonMinBy (strikeDistance g.ltp) e rest)).isSome &&
      (entryPutId (pythonMinBy (strikeDistance g.ltp) e rest)).isSome) = false := by
    rcases h with h | h
    · rw [hcall] at h
      simp [h]
    · rw [hput] at h
      simp [h]
  have hfcc : ∀ s' : AState, fetch_closest_contract_ids g s' =
      ⟨false,
       { s' with call_contract_id := entryCallId (pythonMinBy (strikeDistance g.ltp) e rest),
                 put_contract_id := entryPutId (pythonMinBy (strikeDistance g.ltp) e rest) },
       [GCall.chain, GCall.livePrice], [Msg.noValidContractIds]⟩ := by
    intro s'
    unfold fetch_closest_contract_ids
    rw [hchains]
    simp [hcond]
  refine ⟨by rw [hfcc s], by rw [hfcc s, hcall], by rw [hfcc s, hput], ?_⟩
  unfold analyze
  by_cases ht : (fetch_ticker_details g s).ok
  · rw [if_pos ht, hfcc]
    simp
  · rw [if_neg ht]

/-- Witness for the amended C3 at the one legged snapshot. -/
theorem C3_missing_leg_all_or_nothing_w :
    (fetch_closest_contract_ids gOneLeg s0).ok = false ∧
    (fetch_closest_contract_ids gOneLeg s0).state.call_contract_id = selCallId gOneLeg ∧
    (fetch_closest_contract_ids gOneLeg s0).state.put_contract_id = selPutId gOneLeg ∧
    (analyze gOneLeg sqZero s0).result = none :=
  C3_missing_leg_all_or_nothing gOneLeg s0 sqZero
    ⟨10000, some ⟨some "CALL1"⟩, none⟩ [] rfl (Or.inr (by decide))

/-- C7: an absent candle series, or one shorter than 20 rows, makes
indicator derivation return an absent frame with the single
insufficiency message, which is a warning site, not an error site. -/
theorem C7_insufficient_data (sq : ℚ → ℚ) (data : Option DFrame)
    (h : data = none ∨ ∃ f, data = some f ∧ f.length < 20) :
    (calculate_technical_indicators sq data).result = none ∧
    (calculate_technical_indicators sq data).msgs = [Msg.notEnoughData] ∧
    Msg.notEnoughData.isWarning = true := by
  rcases h with rfl | ⟨f, rfl, hf⟩
  · exact ⟨rfl, rfl, rfl⟩
  · simp only [calculate_technical_indicators]
    rw [if_pos hf]
    exact ⟨rfl, rfl, rfl⟩

/-- Witness for C7 at a concrete 15 row frame. -/
theorem C7_insufficient_data_w :
    (calculate_technical_indicators sqZero (some (mkFrame 15))).result = none ∧
    (calculate_technical_indicators sqZero (some (mkFrame 15))).msgs = [Msg.notEnoughData] ∧
    Msg.notEnoughData.isWarning = true :=
  C7_insufficient_data sqZero (some (mkFrame 15))
    (Or.inr ⟨mkFrame 15, rfl, by decide⟩)

/-- C8: an absent contract id short circuits the price fetch to an
absent frame with no gateway call at all, hence zero candle history
calls. -/
theorem C8_absent_id_short_circuit (g : Gateway) :
    fetch_contract_price_details g none = ⟨none, [], []⟩ ∧
    (fetch_contract_price_details g none).calls.countP isCandleCall = 0 :=
  ⟨rfl, rfl⟩

/-- C9: an empty search response makes resolution fail, analyze return
an absent result, and the whole run issues no candle history call. -/
theorem C9_empty_search (g : Gateway) (sq : ℚ → ℚ) (s : AState)
    (h : g.searchContent = []) :
    (fetch_ticker_details g s).ok = false ∧
    (analyze g sq s).result = none ∧
    (analyze g sq s).calls.countP isCandleCall = 0 := by
  have ht : fetch_ticker_details g s =
      ⟨false, s, [GCall.search], [Msg.noSearchResults]⟩ := by
    unfold fetch_ticker_details
    rw [h]
  have ha : analyze g sq s = ⟨none, s, [GCall.search], [Msg.noSearchResults]⟩ := by
    unfold analyze
    rw [ht]
    simp
  refine ⟨by rw [ht], by rw [ha], by rw [ha]; rfl⟩

/-- Witness for C9 at the empty search snapshot. -/
theorem C9_empty_search_w :
    (fetch_ticker_details gEmptySearch s0).ok = false ∧
    (analyze gEmptySearch sqZero s0).result = none ∧
    (analyze gEmptySearch sqZero s0).calls.countP isCandleCall = 0 :=
  C9_empty_search gEmptySearch sqZero s0 rfl

namespace PSeries

theorem undef_le_len (s : PSeries) : s.undef ≤ s.len := Nat.le_add_right _ _

theorem len_ofVals (xs : List ℚ) : (ofVals xs).len = xs.length := by
  simp [ofVals, len]

theorem len_shift1 (s : PSeries) : (shift1 s).len = s.len := by
  simp [shift1, len, List.length_dropLast]
  omega

theorem len_map2 (f : ℚ → ℚ → ℚ) (a b : PSeries) (n : ℕ)
    (ha : a.len = n) (hb : b.len = n) : (map2 f a b).len = n := by
  simp [map2, len, List.length_zipWith, List.length_drop] at *
  omega

theorem len_pmap (f : ℚ → ℚ) (s : PSeries) : (pmap f s).len = s.len := by
  simp [pmap, len]

theorem ewmScan_length (al a : ℚ) (xs : List ℚ) :
    (ewmScan al a xs).length = xs.length + 1 := by
  induction xs generalizing a with
  | nil => rfl
  | cons x xs ih => simp [ewmScan, ih]

theorem ewmVals_length (al : ℚ) (xs : List ℚ) :
    (ewmVals al xs).length = xs.length := by
  cases xs with
  | nil => rfl
  | cons x xs => simp [ewmVals, ewmScan_length]

theorem len_ewmMean (al : ℚ) (m : ℕ) (s : PSeries) :
    (ewmMean al m s).len = s.len := by
  simp [ewmMean, len, List.length_drop, ewmVals_length]
  omega

theorem len_rollingMeanW (w : ℕ) (s : PSeries) (hw : 1 ≤ w) :
    (rollingMeanW w s).len = s.len := by
  simp [rollingMeanW, len, List.length_range]
  omega

theorem len_rollingStdP (sq : ℚ → ℚ) (w : ℕ) (s : PSeries) (hw : 1 ≤ w) :
    (rollingStdP sq w s).len = s.len := by
  simp [rollingStdP, len, List.length_range]
  omega

theorem cell_isSome (s : PSeries) (i : ℕ) :
    ((s.cell i).isSome = true) ↔ (s.undef ≤ i ∧ i < s.len) := by
  unfold cell
  split
  case isTrue h =>
    simp only [Option.isSome_none, Bool.false_eq_true, false_iff]
    unfold len
    omega
  case isFalse h =>
    rw [Option.isSome_iff_exists]
    constructor
    · rintro ⟨a, ha⟩
      have hlt := (List.getElem?_eq_some.mp ha).1
      unfold len
      omega
    · intro hcond
      have hlt : i - s.undef < s.vals.length := by
        unfold len at hcond
        omega
      exact ⟨_, List.getElem?_eq_some.mpr ⟨hlt, rfl⟩⟩

end PSeries

theorem recScan_length (f : ℚ → ℚ → ℚ) (a : ℚ) (xs : List ℚ) :
    (recScan f a xs).length = xs.length + 1 := by
  induction xs generalizing a with
  | nil => rfl
  | cons x xs ih => simp [recScan, ih]

theorem rsiSeries_undef_len (c : PSeries) (h : c.undef = 0) :
    (rsiSeries c).undef = min c.len 13 ∧ (rsiSeries c).len = c.len := by
  unfold rsiSeries PSeries.sub PSeries.map2 PSeries.ewmMean PSeries.shift1
  simp [PSeries.len, PSeries.ewmVals_length, List.length_zipWith, List.length_drop,
        List.length_dropLast, List.length_append, List.length_replicate,
        List.length_map, h]
  omega

theorem macdHistSeries_undef_len (c : PSeries) (h : c.undef = 0) :
    (macdHistSeries c).undef = min c.len 33 ∧ (macdHistSeries c).len = c.len := by
  unfold macdHistSeries PSeries.sub PSeries.map2 PSeries.ewmMean
  simp [PSeries.len, PSeries.ewmVals_length, List.length_zipWith, List.length_drop, h]
  omega

theorem tsiSeries_undef_len (c : PSeries) (h : c.undef = 0) :
    (tsiSeries c).undef = min c.len 37 ∧ (tsiSeries c).len = c.len := by
  unfold tsiSeries PSeries.sub PSeries.map2 PSeries.ewmMean PSeries.shift1 PSeries.pmap
  simp [PSeries.len, PSeries.ewmVals_length, List.length_zipWith, List.length_drop,
        List.length_dropLast, List.length_map, h]
  omega

theorem adxVals_length (high low close : List ℚ)
    (hh : high.length = close.length) (hl : low.length = close.length)
    (hn : 28 ≤ close.length) :
    (adxVals high low close).length = close.length := by
  unfold adxVals
  simp [recScan_length, List.length_zipWith, List.length_drop, List.length_take,
        List.length_append, List.length_replicate, hh, hl]
  omega

theorem frameCloses_undef (f : DFrame) : (frameCloses f).undef = 0 := rfl

theorem frameCloses_len (f : DFrame) : (frameCloses f).len = f.length := by
  rw [frameCloses, PSeries.len_ofVals, List.length_map]

theorem colRSI_spec (f : DFrame) :
    (colRSI f).undef = min f.length 13 ∧ (colRSI f).len = f.length := by
  have h := rsiSeries_undef_len (frameCloses f) rfl
  rwa [frameCloses_len] at h

theorem colRSISMA_spec (f : DFrame) :
    (colRSISMA f).undef = min f.length 26 ∧ (colRSISMA f).len = f.length := by
  obtain ⟨hu, hl⟩ := colRSI_spec f
  constructor
  · have he : (colRSISMA f).undef = min ((colRSI f).len) ((colRSI f).undef + 13) := rfl
    rw [he, hu, hl]
    omega
  · rw [colRSISMA, PSeries.len_rollingMeanW _ _ (by norm_num), hl]

theorem colDiff_spec (f : DFrame) :
    (colDiff f).undef = min f.length 26 ∧ (colDiff f).len = f.length := by
  obtain ⟨h1u, h1l⟩ := colRSI_spec f
  obtain ⟨h2u, h2l⟩ := colRSISMA_spec f
  constructor
  · have he : (colDiff f).undef = max (colRSI f).undef (colRSISMA f).undef := rfl
    rw [he, h1u, h2u]
    omega
  · exact PSeries.len_map2 _ _ _ _ h1l h2l

theorem colMavg_spec (f : DFrame) :
    (colMavg f).undef = min f.length 19 ∧ (colMavg f).len = f.length := by
  constructor
  · have he : (colMavg f).undef
        = min ((frameCloses f).len) ((frameCloses f).undef + 19) := rfl
    rw [he, frameCloses_len, frameCloses_undef]
  · rw [colMavg, PSeries.len_rollingMeanW _ _ (by norm_num), frameCloses_len]

theorem colMstd_spec (sq : ℚ → ℚ) (f : DFrame) :
    (colMstd sq f).undef = min f.length 19 ∧ (colMstd sq f).len = f.length := by
  constructor
  · have he : (colMstd sq f).undef
        = min ((frameCloses f).len) ((frameCloses f).undef + 19) := rfl
    rw [he, frameCloses_len, frameCloses_undef]
  · rw [colMstd, PSeries.len_rollingStdP _ _ _ (by norm_num), frameCloses_len]

theorem colBBU_spec (sq : ℚ → ℚ) (f : DFrame) :
    (colBBU sq f).undef = min f.length 19 ∧ (colBBU sq f).len = f.length := by
  obtain ⟨h1u, h1l⟩ := colMavg_spec f
  obtain ⟨h2u, h2l⟩ := colMstd_spec sq f
  constructor
  · have he : (colBBU sq f).undef = max (colMavg f).undef (colMstd sq f).undef := rfl
    rw [he, h1u, h2u]
    omega
  · exact PSeries.len_map2 _ _ _ _ h1l h2l

theorem colBBL_spec (sq : ℚ → ℚ) (f : DFrame) :
    (colBBL sq f).undef = min f.length 19 ∧ (colBBL sq f).len = f.length := by
  obtain ⟨h1u, h1l⟩ := colMavg_spec f
  obtain ⟨h2u, h2l⟩ := colMstd_spec sq f
  constructor
  · have he : (colBBL sq f).undef = max (colMavg f).undef (colMstd sq f).undef := rfl
    rw [he, h1u, h2u]
    omega
  · exact PSeries.len_map2 _ _ _ _ h1l h2l

theorem colBBW_spec (sq : ℚ → ℚ) (f : DFrame) :
    (colBBW sq f).undef = min f.length 19 ∧ (colBBW sq f).len = f.length := by
  obtain ⟨h1u, h1l⟩ := colBBU_spec sq f
  obtain ⟨h2u, h2l⟩ := colBBL_spec sq f
  obtain ⟨h3u, h3l⟩ := colMavg_spec f
  constructor
  · have he : (colBBW sq f).undef
        = max (max (colBBU sq f).undef (colBBL sq f).undef) (colMavg f).undef := rfl
    rw [he, h1u, h2u, h3u]
    omega
  · exact PSeries.len_map2 _ _ _ _ (PSeries.len_map2 _ _ _ _ h1l h2l) h3l

theorem colMACD_spec (f : DFrame) :
    (colMACD f).undef = min f.length 33 ∧ (colMACD f).len = f.length := by
  have h := macdHistSeries_undef_len (frameCloses f) rfl
  rwa [frameCloses_len] at h

theorem colTSI_spec (f : DFrame) :
    (colTSI f).undef = min f.length 37 ∧ (colTSI f).len = f.length := by
  have h := tsiSeries_undef_len (frameCloses f) rfl
  rwa [frameCloses_len] at h

theorem colADX_spec (f : DFrame) (hn : 28 ≤ f.length) :
    (colADX f).undef = 0 ∧ (colADX f).len = f.length := by
  refine ⟨rfl, ?_⟩
  have h := adxVals_length (f.map (fun r => r.base.high)) (f.map (fun r => r.base.low))
    (f.map (fun r => r.base.close)) (by simp) (by simp) (by simpa using hn)
  simp [colADX, adxSeries, PSeries.len, h]

set_option maxHeartbeats 2000000 in
theorem augRow_allDef_eq (sq : ℚ → ℚ) (f : DFrame) (hn : 28 ≤ f.length) (i : ℕ) :
    (augRow f sq i).allDef = decide (min f.length 37 ≤ i ∧ i < f.length) := by
  obtain ⟨h1u, h1l⟩ := colRSI_spec f
  obtain ⟨h2u, h2l⟩ := colRSISMA_spec f
  obtain ⟨h3u, h3l⟩ := colDiff_spec f
  obtain ⟨h4u, h4l⟩ := colMavg_spec f
  obtain ⟨h5u, h5l⟩ := colBBU_spec sq f
  obtain ⟨h6u, h6l⟩ := colBBL_spec sq f
  obtain ⟨h7u, h7l⟩ := colBBW_spec sq f
  obtain ⟨h8u, h8l⟩ := colMACD_spec f
  obtain ⟨h9u, h9l⟩ := colADX_spec f hn
  obtain ⟨h10u, h10l⟩ := colTSI_spec f
  by_cases hc : min f.length 37 ≤ i ∧ i < f.length
  · have c1 : ((colRSI f).cell i).isSome = true :=
      (PSeries.cell_isSome _ i).mpr (by rw [h1u, h1l]; omega)
    have c2 : ((colRSISMA f).cell i).isSome = true :=
      (PSeries.cell_isSome _ i).mpr (by rw [h2u, h2l]; omega)
    have c3 : ((colDiff f).cell i).isSome = true :=
      (PSeries.cell_isSome _ i).mpr (by rw [h3u, h3l]; omega)
    have c4 : ((colMavg f).cell i).isSome = true :=
      (PSeries.cell_isSome _ i).mpr (by rw [h4u, h4l]; omega)
    have c5 : ((colBBU sq f).cell i).isSome = true :=
      (PSeries.cell_isSome _ i).mpr (by rw [h5u, h5l]; omega)
    have c6 : ((colBBL sq f).cell i).isSome = true :=
      (PSeries.cell_isSome _ i).mpr (by rw [h6u, h6l]; omega)
    have c7 : ((colBBW sq f).cell i).isSome = true :=
      (PSeries.cell_isSome _ i).mpr (by rw [h7u, h7l]; omega)
    have c8 : ((colMACD f).cell i).isSome = true :=
      (PSeries.cell_isSome _ i).mpr (by rw [h8u, h8l]; omega)
    have c9 : ((colADX f).cell i).isSome = true :=
      (PSeries.cell_isSome _ i).mpr (by rw [h9u, h9l]; omega)
    have c10 : ((colTSI f).cell i).isSome = true :=
      (PSeries.cell_isSome _ i).mpr (by rw [h10u, h10l]; omega)
    rw [decide_eq_true hc]
    simp [augRow, IndRow.allDef, c1, c2, c3, c4, c5, c6, c7, c8, c9, c10]
  · have c10 : ((colTSI f).cell i).isSome = false := by
      cases hb : ((colTSI f).cell i).isSome
      · rfl
      · exfalso
        have h := (PSeries.cell_isSome _ i).mp hb
        rw [h10u, h10l] at h
        omega
    rw [decide_eq_false hc]
    simp [augRow, IndRow.allDef, c10]

theorem filter_range_le_length (n K : ℕ) :
    ((List.range n).filter (fun i => decide (K ≤ i))).length = n - K := by
  induction n with
  | zero => simp
  | succ m ih =>
    rw [List.range_succ m, List.filter_append, List.length_append, ih]
    by_cases h : K ≤ m
    · simp only [List.filter_cons, List.filter_nil, decide_eq_true h]
      simp
      omega
    · simp only [List.filter_cons, List.filter_nil]
      rw [decide_eq_false h]
      simp
      omega

set_option maxHeartbeats 2000000 in
theorem dropna_augment_length (sq : ℚ → ℚ) (f : DFrame) (hn : 28 ≤ f.length) :
    (dropna (augment sq f)).length = f.length - min f.length 37 := by
  rw [dropna, augment, List.filter_map, List.length_map]
  have h1 : (List.range f.length).filter (IndRow.allDef ∘ augRow f sq)
      = (List.range f.length).filter (fun i => decide (min f.length 37 ≤ i)) := by
    apply List.filter_congr
    intro i hi
    have hi2 : i < f.length := List.mem_range.mp hi
    show IndRow.allDef (augRow f sq i) = _
    rw [augRow_allDef_eq sq f hn i]
    simp [hi2]
  rw [h1, filter_range_le_length]

/-- C2 counterexample: a 28 row candle series on which derivation
succeeds (returns a frame), yet the returned frame is empty: all 28
rows were dropped, not max(lookback) - 1 = 19 rows (the specification
names the 20 period moving average / band as the longest lookback).
The rows are dropped by dropna because the TSI column is undefined
before index 37 and the MACD histogram before index 33. -/
theorem C2_counterexample :
    (calculate_technical_indicators sqZero (some (mkFrame 28))).result = some [] ∧
    (mkFrame 28).length = 28 ∧
    (mkFrame 28).length - ([] : DFrame).length ≠ 19 := by
  refine ⟨by decide, by decide, by decide⟩

/-- C2 amended: on a series of at least 28 rows (for 20 to 27 rows the
ADX computation of the ta library raises an internal index error and
derivation returns an absent frame), derivation returns the dropna of
the in place augmented frame; that output contains no row with an
undefined derived value, and the number of dropped rows equals
min(length, 37): exactly the warm up of the longest derived column
(TSI, first defined at row index 37), not 19. -/
theorem C2_defined_rows_and_drop_count (sq : ℚ → ℚ) (f : DFrame)
    (hn : 28 ≤ f.length) :
    (calculate_technical_indicators sq (some f)).result = some (dropna (augment sq f)) ∧
    (∀ r ∈ dropna (augment sq f), r.allDef = true) ∧
    (dropna (augment sq f)).length = f.length - min f.length 37 ∧
    f.length - (dropna (augment sq f)).length = min f.length 37 := by
  have hcount := dropna_augment_length sq f hn
  refine ⟨?_, ?_, hcount, ?_⟩
  · simp only [calculate_technical_indicators]
    rw [if_neg (by omega), if_neg (by omega)]
  · intro r hr
    exact List.of_mem_filter hr
  · rw [hcount]
    omega

/-- Witness for the amended C2 at a concrete 38 row frame. -/
theorem C2_defined_rows_and_drop_count_w :
    (calculate_technical_indicators sqZero (some (mkFrame 38))).result
      = some (dropna (augment sqZero (mkFrame 38))) ∧
    (∀ r ∈ dropna (augment sqZero (mkFrame 38)), r.allDef = true) ∧
    (dropna (augment sqZero (mkFrame 38))).length
      = (mkFrame 38).length - min (mkFrame 38).length 37 ∧
    (mkFrame 38).length - (dropna (augment sqZero (mkFrame 38))).length
      = min (mkFrame 38).length 37 :=
  C2_defined_rows_and_drop_count sqZero (mkFrame 38) (by decide)

theorem ftd_ok (g : Gateway) (s : AState) :
    (fetch_ticker_details g s).ok = resolveOk g := by
  unfold fetch_ticker_details resolveOk
  cases g.searchContent with
  | nil => rfl
  | cons item rest =>
    cases h : item.search_id.isSome && item.nse_scrip_code.isSome <;> simp [h]

theorem fcc_ok (g : Gateway) (s : AState) :
    (fetch_closest_contract_ids g s).ok = selectOk g := by
  unfold fetch_closest_contract_ids
  cases hch : g.optionChains with
  | nil =>
    simp [selectOk, selCallId, selPutId, selectedEntry, hch]
  | cons e rest =>
    simp only [selectOk, selCallId, selPutId, selectedEntry, hch]
    cases h : (entryCallId (pythonMinBy (strikeDistance g.ltp) e rest)).isSome
        && (entryPutId (pythonMinBy (strikeDistance g.ltp) e rest)).isSome
      <;> simp [h]

theorem fcc_state_ids (g : Gateway) (s : AState) (hne : g.optionChains ≠ []) :
    (fetch_closest_contract_ids g s).state.call_contract_id = selCallId g ∧
    (fetch_closest_contract_ids g s).state.put_contract_id = selPutId g := by
  cases hch : g.optionChains with
  | nil => exact absurd hch hne
  | cons e rest =>
    unfold fetch_closest_contract_ids
    rw [hch]
    simp only [selCallId, selPutId, selectedEntry, hch]
    cases h : (entryCallId (pythonMinBy (strikeDistance g.ltp) e rest)).isSome
        && (entryPutId (pythonMinBy (strikeDistance g.ltp) e rest)).isSome
      <;> simp [h]

theorem selectOk_chains_ne (g : Gateway) (hso : selectOk g = true) :
    g.optionChains ≠ [] := by
  intro hnil
  simp [selectOk, selCallId, selectedEntry, hnil] at hso

theorem analyze_result_eq (g : Gateway) (sq : ℚ → ℚ) (s : AState) :
    (analyze g sq s).result
      = if resolveOk g && selectOk g then
          some ⟨⟨legData g sq (selCallId g), selCallId g⟩,
                ⟨legData g sq (selPutId g), selPutId g⟩⟩
        else none := by
  simp only [analyze]
  rw [ftd_ok g s]
  by_cases hro : resolveOk g = true
  · rw [if_pos hro]
    rw [fcc_ok g (fetch_ticker_details g s).state]
    by_cases hso : selectOk g = true
    · rw [if_pos hso]
      obtain ⟨hcall, hput⟩ :=
        fcc_state_ids g (fetch_ticker_details g s).state (selectOk_chains_ne g hso)
      rw [hcall, hput]
      rw [if_pos (by rw [hro, hso]; rfl)]
      rfl
    · rw [if_neg hso]
      rw [Bool.not_eq_true] at hso
      rw [if_neg (by rw [hso]; simp)]
  · rw [if_neg hro]
    rw [Bool.not_eq_true] at hro
    rw [if_neg (by rw [hro]; simp)]

theorem summary_result_eq (g : Gateway) (sq : ℚ → ℚ) (s : AState) :
    (analysis_summary g sq s).result
      = if resolveOk g && selectOk g then
          some ⟨(legData g sq (selCallId g)).bind
                  (fun fr => fr.getLast?.map (fun r => SummaryLeg.mk r (selCallId g))),
                (legData g sq (selPutId g)).bind
                  (fun fr => fr.getLast?.map (fun r => SummaryLeg.mk r (selPutId g)))⟩
        else none := by
  simp only [analysis_summary]
  rw [ftd_ok g s]
  by_cases hro : resolveOk g = true
  · rw [if_pos hro]
    rw [fcc_ok g (fetch_ticker_details g s).state]
    by_cases hso : selectOk g = true
    · rw [if_pos hso]
      obtain ⟨hcall, hput⟩ :=
        fcc_state_ids g (fetch_ticker_details g s).state (selectOk_chains_ne g hso)
      rw [hcall, hput]
      rw [if_pos (by rw [hro, hso]; rfl)]
      rfl
    · rw [if_neg hso]
      rw [Bool.not_eq_true] at hso
      rw [if_neg (by rw [hso]; simp)]
  · rw [if_neg hro]
    rw [Bool.not_eq_true] at hro
    rw [if_neg (by rw [hro]; simp)]

/-- C5: the summary view equals the projection of the full series view:
per leg, the most recent row of the derived frame plus the contract id.
Both methods rerun the pipeline against the same snapshot, so the
summary is derivable from one conceptual run. -/
theorem C5_summary_is_projection (g : Gateway) (sq : ℚ → ℚ) (s : AState) :
    (analysis_summary g sq s).result
      = ((analyze g sq s).result).map summaryProjection := by
  rw [analyze_result_eq, summary_result_eq]
  by_cases hb : (resolveOk g && selectOk g) = true
  · rw [if_pos hb, if_pos hb]
    rfl
  · rw [if_neg hb, if_neg hb]
    rfl

theorem analyze_result_state_blind (g : Gateway) (sq : ℚ → ℚ) (s t : AState) :
    (analyze g sq s).result = (analyze g sq t).result := by
  rw [analyze_result_eq, analyze_result_eq]

/-- C6: running analyze twice with the same inputs against the same
snapshot yields the same output; the instance state left behind by the
first run does not change the second result. -/
theorem C6_two_runs_identical (g : Gateway) (sq : ℚ → ℚ) (s : AState) :
    (analyze g sq ((analyze g sq s).state)).result = (analyze g sq s).result :=
  analyze_result_state_blind g sq _ s

/-- C4 counterexample: selection succeeds on both legs but both candle
responses are empty; analyze returns, per leg, the contract id with an
absent frame: a partially populated leg record, not an entirely absent
leg. -/
theorem C4_counterexample :
    (analyze gNoCandles sqZero s0).result
      = some ⟨⟨none, some "CALL1"⟩, ⟨none, some "PUT1"⟩⟩ := by
  decide

/-- C4 amended: when a leg fails at the candle fetch or indicator
stage, the summary view leaves that leg entirely absent, while the full
series view keeps the leg record with the contract id populated and
only the data field absent. -/
theorem C4_failed_leg_views (g : Gateway) (sq : ℚ → ℚ) (s : AState)
    (hro : resolveOk g = true) (hso : selectOk g = true) :
    (legData g sq (selCallId g) = none →
      ((analysis_summary g sq s).result).map SummaryResult.callLeg = some none ∧
      ((analyze g sq s).result).map AResult.callLeg = some ⟨none, selCallId g⟩) ∧
    (legData g sq (selPutId g) = none →
      ((analysis_summary g sq s).result).map SummaryResult.putLeg = some none ∧
      ((analyze g sq s).result).map AResult.putLeg = some ⟨none, selPutId g⟩) := by
  have hb : (resolveOk g && selectOk g) = true := by rw [hro, hso]; rfl
  refine ⟨fun hld => ⟨?_, ?_⟩, fun hld => ⟨?_, ?_⟩⟩
  · rw [summary_result_eq, if_pos hb, hld]
    rfl
  · rw [analyze_result_eq, if_pos hb, hld]
    rfl
  · rw [summary_result_eq, if_pos hb, hld]
    rfl
  · rw [analyze_result_eq, if_pos hb, hld]
    rfl

/-- Witness for the amended C4: both legs of this snapshot fail at the
candle fetch; the call leg is absent in the summary view and keeps its
id with absent data in the series view. -/
theorem C4_failed_leg_views_w :
    ((analysis_summary gNoCandles sqZero s0).result).map SummaryResult.callLeg
      = some none ∧
    ((analyze gNoCandles sqZero s0).result).map AResult.callLeg
      = some ⟨none, selCallId gNoCandles⟩ :=
  (C4_failed_leg_views gNoCandles sqZero s0 (by decide) (by decide)).1 (by decide)

theorem map_range_getD (l : List α) (d : α) :
    (List.range l.length).map (fun i => l.getD i d) = l := by
  apply List.ext_getElem
  · simp
  · intro i h1 h2
    simp only [List.getElem_map, List.getElem_range]
    rw [List.getD_eq_getElem l d h2]

theorem augment_map_base (sq : ℚ → ℚ) (f : DFrame) :
    (augment sq f).map IndRow.base = f.map IndRow.base := by
  apply List.ext_getElem
  · simp [augment]
  · intro i h1 h2
    have hif : i < f.length := by simpa using h2
    simp only [augment, List.getElem_map, List.getElem_range, augRow]
    rw [List.getD_eq_getElem f _ hif]

theorem augmentAborted_map_base (sq : ℚ → ℚ) (f : DFrame) :
    (augmentAborted sq f).map IndRow.base = f.map IndRow.base := by
  apply List.ext_getElem
  · simp [augmentAborted]
  · intro i h1 h2
    have hif : i < f.length := by simpa using h2
    simp only [augmentAborted, List.getElem_map, List.getElem_range, augRow]
    rw [List.getD_eq_getElem f _ hif]

/-- C10 counterexample: indicator derivation mutates the frame passed
to it: after the call, every row of the argument frame carries an ADX
value, while the candle frame passed in had none; the stored argument
is no longer equal to the original frame. -/
theorem C10_counterexample :
    ((calculate_technical_indicators sqZero (some (mkFrame 28))).post).map
        (fun fr => fr.map (fun r => r.ADX.isSome)) = some (List.replicate 28 true) ∧
    ((some (mkFrame 28) : Option DFrame)).map
        (fun fr => fr.map (fun r => r.ADX.isSome)) = some (List.replicate 28 false) ∧
    (calculate_technical_indicators sqZero (some (mkFrame 28))).post
      ≠ some (mkFrame 28) := by
  have ha : ((calculate_technical_indicators sqZero (some (mkFrame 28))).post).map
      (fun fr => fr.map (fun r => r.ADX.isSome)) = some (List.replicate 28 true) := by
    decide
  have hb : ((some (mkFrame 28) : Option DFrame)).map
      (fun fr => fr.map (fun r => r.ADX.isSome)) = some (List.replicate 28 false) := by
    decide
  refine ⟨ha, hb, fun h => ?_⟩
  rw [h, hb] at ha
  exact absurd ha (by decide)

/-- C10 amended: indicator derivation does mutate the frame it is
given, by assigning the derived columns in place; the base candle
columns of the argument are never altered, and the two legs stay
isolated: changing only the put side candle response of the snapshot
leaves the call leg result unchanged. -/
theorem C10_mutation_and_leg_isolation
    (sq : ℚ → ℚ) (data : Option DFrame) (g₂ g : Gateway) (s : AState)
    (hs : g₂.searchContent = g.searchContent)
    (hc : g₂.optionChains = g.optionChains)
    (hl : g₂.ltp = g.ltp)
    (hcand : ∀ cid : String, selCallId g = some cid →
      g₂.candleHistory cid = g.candleHistory cid) :
    ((calculate_technical_indicators sq data).post).map (List.map IndRow.base)
        = data.map (List.map IndRow.base) ∧
    ((analyze g₂ sq s).result).map AResult.callLeg
        = ((analyze g sq s).result).map AResult.callLeg := by
  constructor
  · cases data with
    | none => rfl
    | some f =>
      simp only [calculate_technical_indicators]
      by_cases h20 : f.length < 20
      · rw [if_pos h20]
      · rw [if_neg h20]
        by_cases h28 : f.length < 28
        · rw [if_pos h28]
          simp only [CalcOut.post, Option.map]
          rw [augmentAborted_map_base]
        · rw [if_neg h28]
          simp only [CalcOut.post, Option.map]
          rw [augment_map_base]
  · have hro : resolveOk g₂ = resolveOk g := by
      unfold resolveOk
      rw [hs]
    have hsel : selCallId g₂ = selCallId g ∧ selPutId g₂ = selPutId g := by
      unfold selCallId selPutId selectedEntry
      rw [hc, hl]
      exact ⟨rfl, rfl⟩
    have hso : selectOk g₂ = selectOk g := by
      unfold selectOk
      rw [hsel.1, hsel.2]
    rw [analyze_result_eq, analyze_result_eq, hro, hso]
    by_cases hb : (resolveOk g && selectOk g) = true
    · rw [if_pos hb, if_pos hb, hsel.1]
      have hld : legData g₂ sq (selCallId g) = legData g sq (selCallId g) := by
        cases hcid : selCallId g with
        | none => rfl
        | some cid =>
          simp only [legData, fetch_contract_price_details]
          rw [hcand cid hcid]
      rw [hld]
      rfl
    · rw [if_neg hb, if_neg hb]

/-- Witness for the amended C10: the short circuit branch leaves the
argument untouched, and a snapshot differing from gNoCandles only in
the put side candle response yields the same call leg. -/
theorem C10_mutation_and_leg_isolation_w :
    ((calculate_technical_indicators sqZero none).post).map (List.map IndRow.base)
        = (none : Option DFrame).map (List.map IndRow.base) ∧
    ((analyze gPutCandles sqZero s0).result).map AResult.callLeg
        = ((analyze gNoCandles sqZero s0).result).map AResult.callLeg :=
  C10_mutation_and_leg_isolation sqZero none gPutCandles gNoCandles s0 rfl rfl rfl
    (fun cid h => by
      have h2 : some "CALL1" = some cid := h
      cases h2
      decide)

end OptionsChart
